import Mathlib

/-!
Verification of the structured rich-text editing engine.

This file gives a shallow embedding of the core parts of the repository:

* the AI-suggestion state machine (`editorMachine` in the xstate machine
  module): states, events and transition function;
* the editor session refs and document effects of the `Editor` component
  (streaming insertion effect, `handleReject`);
* the structured-payload conversion `jsonToNodes`;
* the markdown input rules (`buildInputRules`);
* the slash-command keydown handler (`slashCommandPlugin`);
* the block commands `moveBlockUp` and `deleteBlock`.

Documents touched by the streaming/reject path live inside a single
paragraph, so they are embedded as a list of characters each carrying the
provisional `em` mark flag; ProseMirror positions inside the paragraph are
1-based (position `p` sits before the character at index `p - 1`), and
`doc.content.size` of a document whose single paragraph holds `n`
characters is `n + 2` (the paragraph's open and close tokens).
-/

/-! ## AI suggestion state machine (xstate `editorMachine`) -/

/-- The four states of `editorMachine`. -/
inductive MState where
  | idle
  | streaming
  | pending
  | modifying
deriving DecidableEq, Repr

/-- The machine context: `generatedText`, `pendingSuggestion`, `error`,
`selectedText`. -/
structure MCtx where
  generatedText : String
  pendingSuggestion : String
  error : Option String
  selectedText : String
deriving DecidableEq, Repr

/-- The initial context of `editorMachine`. -/
def initialCtx : MCtx :=
  { generatedText := "", pendingSuggestion := "", error := none, selectedText := "" }

/-- The events of `editorMachine`.  Payloads that only feed the invoked
actors (tone, editor context, length) are kept but unused by the
transition function, exactly as in the machine's `assign` actions. -/
inductive MEvent where
  | generate (currentText : String) (tone : String)
  | generateWithAction (selectedText : String) (action : String)
  | aiChunk (chunk : String)
  | aiDone
  | aiError (error : String)
  | stop
  | accept
  | reject
  | modify (action : String)
deriving DecidableEq, Repr

/-- The transition function of `editorMachine`, read off the `states`
block of `createMachine`.  An event with no transition in the current
state is ignored (xstate semantics): the state and context are returned
unchanged. -/
def machineStep : MState → MCtx → MEvent → MState × MCtx
  | .idle, c, .generate _ _ =>
      (.streaming, { c with generatedText := "", pendingSuggestion := "", error := none })
  | .idle, c, .generateWithAction sel _ =>
      (.modifying, { c with generatedText := "", pendingSuggestion := "",
                            selectedText := sel, error := none })
  | .streaming, c, .aiChunk ch =>
      (.streaming, { c with generatedText := c.generatedText ++ ch })
  | .streaming, c, .aiDone =>
      (.pending, { c with pendingSuggestion := c.generatedText })
  | .streaming, c, .aiError e =>
      (.idle, { c with error := some e })
  | .streaming, c, .stop => (.idle, c)
  | .pending, c, .accept =>
      (.idle, { c with generatedText := "", pendingSuggestion := "" })
  | .pending, c, .reject =>
      (.idle, { c with generatedText := "", pendingSuggestion := "" })
  | .pending, c, .modify _ =>
      (.modifying, { c with generatedText := "" })
  | .modifying, c, .aiChunk ch =>
      (.modifying, { c with generatedText := c.generatedText ++ ch })
  | .modifying, c, .aiDone =>
      (.pending, { c with pendingSuggestion := c.generatedText })
  | .modifying, c, .aiError e =>
      (.pending, { c with error := some e })
  | .modifying, c, .stop => (.pending, c)
  | s, c, _ => (s, c)

/-! ## Editor session and document effects (`Editor` component) -/

/-- One character of the single paragraph holding the streamed text,
paired with whether it carries the provisional `em` mark. -/
abbrev MChar := Char × Bool

/-- The value `doc.content.size` for a document that is one paragraph holding
`doc` characters: the characters plus the paragraph's two boundary
tokens. -/
def contentSize (doc : List MChar) : Nat := doc.length + 2

/-- The step `tr.delete(a, b)` restricted to positions inside the paragraph:
removes the characters at indices `[a - 1, b - 1)`. -/
def deleteRange (doc : List MChar) (a b : Nat) : List MChar :=
  doc.take (a - 1) ++ doc.drop (b - 1)

/-- The step `tr.insert(pos, schema.text(s, marks))` inside the paragraph: splices
the characters of `s`, each tagged with the mark flag `em`, before the
character at index `pos - 1`. -/
def insertChars (doc : List MChar) (pos : Nat) (s : List Char) (em : Bool) : List MChar :=
  doc.take (pos - 1) ++ s.map (fun c => (c, em)) ++ doc.drop (pos - 1)

/-- The mutable refs of the `Editor` component relevant to the AI
session, together with the document they edit.  `selectionFrom` stands
for `view.state.selection.from`, used as the fallback insertion position
for the first streamed chunk. -/
structure EditorSession where
  doc : List MChar
  selectionFrom : Nat
  aiTextStartPos : Option Nat
  lastInsertedLength : Nat
  fullAiText : List Char
  isReplacingSelection : Bool
  originalText : List Char
  selectionRange : Option (Nat × Nat)
deriving DecidableEq, Repr

/-- The handler `handleReject` of the `Editor` component: if `aiTextStartPosRef` is
set, delete from it to `view.state.doc.content.size - 1`, reinsert the
original replaced text when a selection was being replaced, then reset
all session refs. -/
def handleReject (s : EditorSession) : EditorSession :=
  let d :=
    match s.aiTextStartPos with
    | some startPos =>
        let endPos := contentSize s.doc - 1
        let d1 := deleteRange s.doc startPos endPos
        if s.isReplacingSelection && !s.originalText.isEmpty then
          insertChars d1 startPos s.originalText false
        else d1
    | none => s.doc
  { s with doc := d
           aiTextStartPos := none
           lastInsertedLength := 0
           fullAiText := []
           isReplacingSelection := false
           originalText := []
           selectionRange := none }

/-! ### The streaming insertion effect

The `Editor` component reacts to every change of the accumulated `apiText`
string: it strips the optional `<<<PMJSON>>>…<<<PMJSON>>>` structured
payload marker, trims the result, and splices the not-yet-inserted suffix
into the document at `aiTextStartPosRef + lastInsertedLengthRef`, carrying
the `em` mark.  (`JSON.parse` of the payload and `parsedJsonRef`, which
only feed `handleAccept`, are outside this model; `fullAiTextRef` takes
the stripped text whenever the marker is present.) -/

/-- The whitespace characters recognised by JavaScript `String.trim` that
can occur in this engine's text. -/
def isJsWs (c : Char) : Bool :=
  c = ' ' || c = '\t' || c = '\n' || c = '\r' ||
  c = Char.ofNat 11 || c = Char.ofNat 12

/-- JavaScript `String.prototype.trim`. -/
def jsTrim (s : List Char) : List Char :=
  ((s.dropWhile isJsWs).reverse.dropWhile isJsWs).reverse

/-- The literal payload delimiter. -/
def pmMarker : List Char := "<<<PMJSON>>>".toList

/-- Whether the delimiter occurs at index `i` of `s`. -/
def markerAt (s : List Char) (i : Nat) : Bool :=
  pmMarker.isPrefixOf (s.drop i)

/-- The regex dot does not cross line terminators, so a payload match may
not span a newline. -/
def noNewlineBetween (s : List Char) (a b : Nat) : Bool :=
  ((s.drop a).take (b - a)).all (fun c => c ≠ '\n' && c ≠ '\r')

/-- Closing-delimiter candidates for a greedy `.*` starting after the
opening delimiter at `i`. -/
def pmCloseCands (s : List Char) (i : Nat) : List Nat :=
  (List.range (s.length + 1)).filter
    (fun j => decide (i + pmMarker.length ≤ j) && markerAt s j &&
      noNewlineBetween s (i + pmMarker.length) j)

/-- The match of `/<<<PMJSON>>>.*<<<PMJSON>>>/` in `s`, as a half-open
index range: leftmost starting delimiter that completes a match, with the
greedy (largest) closing delimiter. -/
def pmMatch (s : List Char) : Option (Nat × Nat) :=
  match ((List.range (s.length + 1)).filter
      (fun i => markerAt s i && !(pmCloseCands s i).isEmpty)).head? with
  | none => none
  | some i =>
      match (pmCloseCands s i).max? with
      | none => none
      | some j => some (i, j + pmMarker.length)

/-- Whether the structured-payload marker pair occurs in `s`. -/
def hasPmJson (s : List Char) : Bool := (pmMatch s).isSome

/-- Embeds `apiText.replace(/<<<PMJSON>>>.*<<<PMJSON>>>/, "")`. -/
def stripPmJson (s : List Char) : List Char :=
  match pmMatch s with
  | some (a, b) => s.take a ++ s.drop b
  | none => s

/-- The `useEffect` of the `Editor` component that reacts to `apiText`
changes.  An empty `apiText` resets the inserted-length counter and the
full-text ref (but deliberately keeps `aiTextStartPosRef`).  Otherwise the
suffix of the stripped-and-trimmed display text beyond
`lastInsertedLengthRef`, with carriage returns removed, is inserted with
the `em` mark at `aiTextStartPosRef + lastInsertedLengthRef` (falling
back to the live selection for the first chunk, which also pins
`aiTextStartPosRef`). -/
def streamEffect (st : EditorSession) (apiText : List Char) : EditorSession :=
  if apiText.isEmpty then
    { st with lastInsertedLength := 0, fullAiText := [] }
  else
    let stripped := jsTrim (stripPmJson apiText)
    let st1 := { st with fullAiText := if hasPmJson apiText then stripped else apiText }
    let displayText := stripped
    if st.lastInsertedLength < displayText.length then
      let newChunk := (displayText.drop st.lastInsertedLength).filter (fun c => c ≠ '\r')
      if newChunk.isEmpty then
        { st1 with lastInsertedLength := displayText.length }
      else
        let insertPos :=
          match st.aiTextStartPos with
          | some p => p + st.lastInsertedLength
          | none => st.selectionFrom
        let newStart :=
          match st.aiTextStartPos with
          | some p => some p
          | none => some insertPos
        let actualPos := insertPos + st.lastInsertedLength -
          (if 0 < st.lastInsertedLength then st.lastInsertedLength else 0)
        { st1 with doc := insertChars st.doc actualPos newChunk true
                   aiTextStartPos := newStart
                   lastInsertedLength := displayText.length }
    else st1

/-! ## Structured-output reconciler (`jsonToNodes`) -/

/-- Attribute values occurring in the schema's node attrs. -/
inductive AttrVal where
  | bool (b : Bool)
  | nat (n : Nat)
  | str (s : String)
deriving DecidableEq, Repr

/-- A converted ProseMirror node: either a text run carrying mark names,
or a typed node with attributes and children. -/
inductive PNode where
  | text (s : String) (marks : List String)
  | node (type : String) (attrs : List (String × AttrVal)) (children : List PNode)

/-- The node type names registered in the schema (`editor-config`). -/
def schemaNodeNames : List String :=
  ["doc", "paragraph", "text", "hard_break", "heading", "blockquote",
   "code_block", "horizontal_rule", "image", "bullet_list", "ordered_list",
   "list_item", "task_list", "task_item", "toggle_list", "toggle_item",
   "callout"]

/-- The mark type names registered in the schema (`editor-config`). -/
def schemaMarkNames : List String :=
  ["strong", "em", "code", "underline", "strikethrough", "link", "highlight"]

/-- A node of the structured JSON payload returned by the text service:
a `type` name, attributes, the `text` field (meaningful for `"text"`
nodes; the empty string models a missing field), mark names, and child
nodes. -/
inductive JNode where
  | mk (type : String) (attrs : List (String × AttrVal)) (text : String)
        (marks : List String) (content : List JNode)

/-- Projection of the `type` field. -/
def JNode.typeName : JNode → String
  | .mk t _ _ _ _ => t

/-- Projection of the `content` field. -/
def JNode.contentOf : JNode → List JNode
  | .mk _ _ _ _ c => c

mutual

/-- The function `convertNode` of the `Editor` component.  The whole body sits in a
`try`/`catch` that maps any thrown error to `null`; an unknown node type
is a warned-and-dropped `null` rather than an error.  `schema.text("")`
throws (ProseMirror forbids empty text nodes), which is the error source
reachable in this embedding: a `"text"` payload node with a missing or
empty `text` field. -/
def convertNode (n : JNode) : Option PNode :=
  match convertNodeAttempt n with
  | .ok r => r
  | .error _ => none

/-- The body of `convertNode`'s `try` block: `Except` models a thrown
error, `Option` models the `null` results that drop a node. -/
def convertNodeAttempt : JNode → Except Unit (Option PNode)
  | .mk ty attrs tx mks content =>
    if schemaNodeNames.contains ty then
      let kids := convertNodeList content
      if ty = "text" then
        let marks := mks.filter (fun m => schemaMarkNames.contains m)
        if tx = "" then .error ()
        else .ok (some (.text tx marks))
      else .ok (some (.node ty attrs kids))
    else .ok none

/-- Embeds `nodeData.content.map(convertNode).filter(n => n !== null)`. -/
def convertNodeList : List JNode → List PNode
  | [] => []
  | n :: rest =>
    match convertNode n with
    | some p => p :: convertNodeList rest
    | none => convertNodeList rest

end

/-- The function `jsonToNodes`: convert the parsed payload's top-level `content`
array, dropping nodes that convert to `null`; a missing payload yields
the empty list. -/
def jsonToNodes (parsed : Option JNode) : List PNode :=
  match parsed with
  | none => []
  | some p => convertNodeList p.contentOf

/-! ## Markdown input rules (`buildInputRules`) -/

/-- What an input rule does when it fires. -/
inductive RuleEffect where
  | chars (s : String)
  | setTextblock (kind : String) (attrs : List (String × AttrVal))
  | wrapBlock (kind : String) (attrs : List (String × AttrVal))
  | replaceBlock (nodes : List PNode)
  | inlineMark (mark : String) (attrs : List (String × AttrVal)) (text : String)

/-- An input rule: a matcher over the text run ending at the cursor and
the effect produced from the matched text. -/
structure IRule where
  fires : List Char → Bool
  effect : List Char → RuleEffect

/-- The backtick character. -/
def backtick : Char := Char.ofNat 96

/-- Characters allowed before an opening smart quote:
`[\s\{\[\(\<'"‘“]`. -/
def openQuoteBefore (c : Char) : Bool :=
  isJsWs c || c = '{' || c = '[' || c = '(' || c = '<' ||
  c = Char.ofNat 39 || c = '"' || c = Char.ofNat 0x2018 || c = Char.ofNat 0x201C

/-- Matcher for the opening smart-quote rules: the text ends with the
quote character, at the start of the run or after an opener. -/
def openQuoteMatch (q : Char) (s : List Char) : Bool :=
  match s.reverse with
  | [] => false
  | c :: rest =>
    c = q && (rest.isEmpty || (match rest with | p :: _ => openQuoteBefore p | [] => true))

/-- Matcher for `^(#{i})\s$`. -/
def headingMatch (i : Nat) (s : List Char) : Bool :=
  s.take i == List.replicate i '#' &&
    (match s.drop i with | [c] => isJsWs c | _ => false)

/-- Matcher for `^-\s\[\s\]\s$` (unchecked task item). -/
def taskMatch (s : List Char) : Bool :=
  match s with
  | ['-', a, '[', b, ']', c] => isJsWs a && isJsWs b && isJsWs c
  | _ => false

/-- Matcher for `^-\s\[x\]\s$` with the `i` flag (checked task item). -/
def checkedTaskMatch (s : List Char) : Bool :=
  match s with
  | ['-', a, '[', x, ']', c] => isJsWs a && (x = 'x' || x = 'X') && isJsWs c
  | _ => false

/-- Matcher for `^>>\s$` (toggle list). -/
def toggleMatch (s : List Char) : Bool :=
  match s with
  | ['>', '>', a] => isJsWs a
  | _ => false

/-- Matcher for `^\s*>\s$` (blockquote). -/
def blockquoteMatch (s : List Char) : Bool :=
  match s.dropWhile isJsWs with
  | ['>', a] => isJsWs a
  | _ => false

/-- Matcher for `^\s*([+*])\s$` — the bullet-list rule deliberately does
not accept `-`, to avoid conflicting with the task rules. -/
def bulletMatch (s : List Char) : Bool :=
  match s.dropWhile isJsWs with
  | [c, a] => (c = '+' || c = '*') && isJsWs a
  | _ => false

/-- Matcher for `^(\d+)\.\s$` (ordered list). -/
def orderedMatch (s : List Char) : Bool :=
  let ds := s.takeWhile Char.isDigit
  !ds.isEmpty &&
    (match s.drop ds.length with | ['.', a] => isJsWs a | _ => false)

/-- The digits matched by the ordered-list rule, as a number. -/
def orderedOrder (s : List Char) : Nat :=
  (String.mk (s.takeWhile Char.isDigit)).toNat!

/-- Matcher for ``^```$`` (plain code block). -/
def codeBlockMatch (s : List Char) : Bool :=
  s == [backtick, backtick, backtick]

/-- Matcher for ``^```(\w+)\s$`` (code block with language). -/
def codeBlockLangMatch (s : List Char) : Bool :=
  match s with
  | a :: b :: c :: rest =>
    a = backtick && b = backtick && c = backtick &&
      (let w := rest.takeWhile (fun ch => ch.isAlphanum || ch = '_')
       !w.isEmpty &&
         (match rest.drop w.length with | [d] => isJsWs d | _ => false))
  | _ => false

/-- The language captured by the code-block-with-language rule. -/
def codeBlockLang (s : List Char) : String :=
  String.mk ((s.drop 3).takeWhile (fun ch => ch.isAlphanum || ch = '_'))

/-- Matcher for `^([-*_]){3,}\s$` (horizontal rule). -/
def hrMatch (s : List Char) : Bool :=
  let run := s.takeWhile (fun c => c = '-' || c = '*' || c = '_')
  3 ≤ run.length &&
    (match s.drop run.length with | [a] => isJsWs a | _ => false)

/-- Matcher for the plain callout rule `^:::\s$`. -/
def calloutMatch (s : List Char) : Bool :=
  match s with
  | [':', ':', ':', a] => isJsWs a
  | _ => false

/-- Matcher for the named callout rules `^:::name\s$`. -/
def calloutNamedMatch (name : String) (s : List Char) : Bool :=
  match s.drop (3 + name.length) with
  | [a] => s.take (3 + name.length) == (":::" ++ name).toList && isJsWs a
  | _ => false

/-- Matcher for the mark rules of the form `open(body)close$` where the
body is a nonempty run excluding `ban`: the text ends with `close`,
preceded by a nonempty `ban`-free run, preceded by `open`. -/
def inlineWrapMatch (opener closer : List Char) (ban : Char) (s : List Char) : Bool :=
  closer.reverse.isPrefixOf s.reverse &&
    (let t := s.reverse.drop closer.length
     let run := t.takeWhile (fun c => c ≠ ban)
     !run.isEmpty && opener.reverse.isPrefixOf (t.drop run.length))

/-- Guard for the single-star italic rule `(?<!\*)\*([^*]+)\*(?!\*)$`:
the lookahead `(?!\*)` is vacuous at end of input, and the lookbehind
requires the character before the opening `*` (if any) not to be `*`. -/
def italicStarMatch (s : List Char) : Bool :=
  match s.reverse with
  | c :: t =>
    c = '*' &&
      (let run := t.takeWhile (fun ch => ch ≠ '*')
       !run.isEmpty &&
         (match t.drop run.length with
          | '*' :: rest => (match rest with | p :: _ => p ≠ '*' | [] => true)
          | _ => false))
  | [] => false

/-- Likewise for `(?<!_)_([^_]+)_(?!_)$`. -/
def italicUnderscoreMatch (s : List Char) : Bool :=
  match s.reverse with
  | c :: t =>
    c = '_' &&
      (let run := t.takeWhile (fun ch => ch ≠ '_')
       !run.isEmpty &&
         (match t.drop run.length with
          | '_' :: rest => (match rest with | p :: _ => p ≠ '_' | [] => true)
          | _ => false))
  | [] => false

/-- The text captured between delimiters of width `w` at the end of the
input, for the inline mark rules. -/
def inlineCaptured (w : Nat) (ban : Char) (s : List Char) : String :=
  String.mk (((s.reverse.drop w).takeWhile (fun c => c ≠ ban)).reverse)

/-- Matcher for the closing smart-quote rules `/"$/` and `/'$/`. -/
def closeQuoteMatch (q : Char) (s : List Char) : Bool :=
  match s.reverse with
  | c :: _ => c = q
  | [] => false

/-- An empty paragraph node. -/
def emptyParagraph : PNode := .node "paragraph" [] []

/-- The node built by the task-list rules: one task item with the given
`checked` attribute holding one empty paragraph. -/
def taskListNode (checked : Bool) : PNode :=
  .node "task_list" [] [.node "task_item" [("checked", .bool checked)] [emptyParagraph]]

/-- The node built by the toggle-list rule. -/
def toggleListNode : PNode :=
  .node "toggle_list" [] [.node "toggle_item" [("open", .bool true)] [emptyParagraph]]

/-- The node built by the callout rules. -/
def calloutNode (emoji ty : String) : PNode :=
  .node "callout" [("emoji", .str emoji), ("type", .str ty)] [emptyParagraph]

/-- The ordered list of input rules registered by `buildInputRules`:
smart quotes, ellipsis and em-dash first, then headings, then — in this
order, which the source comments call out — the task-list rules before
any list rule, the toggle rule, blockquote, bullet list (matching only
`+` and `*`, never `-`), ordered list, code blocks, horizontal rule,
callouts, and the inline mark rules. -/
def buildInputRules : List IRule :=
  [ ⟨openQuoteMatch '"', fun _ => .chars "“"⟩,
    ⟨closeQuoteMatch '"', fun _ => .chars "”"⟩,
    ⟨openQuoteMatch (Char.ofNat 39), fun _ => .chars "‘"⟩,
    ⟨closeQuoteMatch (Char.ofNat 39), fun _ => .chars "’"⟩,
    ⟨fun s => ['.', '.', '.'].reverse.isPrefixOf s.reverse, fun _ => .chars "…"⟩,
    ⟨fun s => ['-', '-'].reverse.isPrefixOf s.reverse, fun _ => .chars "—"⟩ ] ++
  (List.range 6).map (fun i =>
    ⟨headingMatch (i + 1), fun _ => .setTextblock "heading" [("level", .nat (i + 1))]⟩) ++
  [ ⟨taskMatch, fun _ => .replaceBlock [taskListNode false]⟩,
    ⟨checkedTaskMatch, fun _ => .replaceBlock [taskListNode true]⟩,
    ⟨toggleMatch, fun _ => .replaceBlock [toggleListNode]⟩,
    ⟨blockquoteMatch, fun _ => .wrapBlock "blockquote" []⟩,
    ⟨bulletMatch, fun _ => .wrapBlock "bullet_list" []⟩,
    ⟨orderedMatch, fun s => .wrapBlock "ordered_list" [("order", .nat (orderedOrder s))]⟩,
    ⟨codeBlockMatch, fun _ => .setTextblock "code_block" []⟩,
    ⟨codeBlockLangMatch, fun s => .setTextblock "code_block" [("language", .str (codeBlockLang s))]⟩,
    ⟨hrMatch, fun _ => .replaceBlock [.node "horizontal_rule" [] [], emptyParagraph]⟩,
    ⟨calloutMatch, fun _ => .replaceBlock [calloutNode "💡" "info"]⟩,
    ⟨calloutNamedMatch "info", fun _ => .replaceBlock [calloutNode "ℹ️" "info"]⟩,
    ⟨calloutNamedMatch "warning", fun _ => .replaceBlock [calloutNode "⚠️" "warning"]⟩,
    ⟨calloutNamedMatch "success", fun _ => .replaceBlock [calloutNode "✅" "success"]⟩,
    ⟨calloutNamedMatch "error", fun _ => .replaceBlock [calloutNode "❌" "error"]⟩,
    ⟨inlineWrapMatch ['*', '*'] ['*', '*'] '*',
      fun s => .inlineMark "strong" [] (inlineCaptured 2 '*' s)⟩,
    ⟨inlineWrapMatch ['_', '_'] ['_', '_'] '_',
      fun s => .inlineMark "strong" [] (inlineCaptured 2 '_' s)⟩,
    ⟨italicStarMatch, fun s => .inlineMark "em" [] (inlineCaptured 1 '*' s)⟩,
    ⟨italicUnderscoreMatch, fun s => .inlineMark "em" [] (inlineCaptured 1 '_' s)⟩,
    ⟨inlineWrapMatch [backtick] [backtick] backtick,
      fun s => .inlineMark "code" [] (inlineCaptured 1 backtick s)⟩,
    ⟨inlineWrapMatch ['~', '~'] ['~', '~'] '~',
      fun s => .inlineMark "strikethrough" [] (inlineCaptured 2 '~' s)⟩,
    ⟨inlineWrapMatch ['=', '='] ['=', '='] '=',
      fun s => .inlineMark "highlight" [("color", .str "yellow")] (inlineCaptured 2 '=' s)⟩ ]

/-- The library `prosemirror-inputrules` tries each rule in declaration order against
the text run ending at the cursor; the first rule that matches fires. -/
def runInputRules (s : List Char) : Option RuleEffect :=
  (buildInputRules.find? (fun r => r.fires s)).map (fun r => r.effect s)

mutual

/-- Whether a converted node mentions the node type `t` anywhere. -/
def mentionsType (t : String) : PNode → Bool
  | .text _ _ => false
  | .node ty _ kids => ty == t || mentionsTypeL t kids

/-- Extension of `mentionsType` over a list of nodes. -/
def mentionsTypeL (t : String) : List PNode → Bool
  | [] => false
  | n :: rest => mentionsType t n || mentionsTypeL t rest

end

/-- Whether a rule effect produces or wraps in a bullet list. -/
def usesBulletList (e : RuleEffect) : Bool :=
  match e with
  | .wrapBlock k _ => k == "bullet_list"
  | .setTextblock k _ => k == "bullet_list"
  | .replaceBlock ns => mentionsTypeL "bullet_list" ns
  | _ => false

/-! ## Slash-command controller (`slashCommandPlugin`) -/

/-- The plugin state `{active, query, from, to}`. -/
structure SlashMenuState where
  active : Bool
  query : List Char
  menuFrom : Nat
  menuTo : Nat
deriving DecidableEq, Repr

/-- The plugin's `init` state. -/
def initSlashState : SlashMenuState :=
  { active := false, query := [], menuFrom := 0, menuTo := 0 }

/-- The valid-position test of `handleKeyDown`: at the start of the
block, or the text before the cursor ends with a space or a newline. -/
def isValidSlashPosition (textBefore : List Char) (parentOffset : Nat) : Bool :=
  parentOffset == 0 ||
    (match textBefore.reverse with
     | c :: _ => c = ' ' || c = '\n'
     | [] => false)

/-- The `handleKeyDown` branch for the `/` key: at a valid position it
(asynchronously) activates the menu over `[pos, pos + 1]` with an empty
query; it always returns `false`, so ProseMirror inserts the `/` as plain
text either way.  `textBefore` is `$from.parent.textBetween(0,
parentOffset)` and `pos` is `$from.pos`. -/
def slashKeyDown (textBefore : List Char) (parentOffset pos : Nat)
    (st : SlashMenuState) : SlashMenuState × Bool :=
  if isValidSlashPosition textBefore parentOffset then
    ({ active := true, query := [], menuFrom := pos, menuTo := pos + 1 }, false)
  else (st, false)

/-! ## Block commands (`moveBlockUp`, `deleteBlock`)

These commands operate on the document tree itself.  The selection is a
text cursor, embedded as the path of child indices from the `doc` root
down to the textblock holding the cursor (node selections are out of
scope).  `getBlockRange` resolves the selection to its *innermost* block
ancestor (`findParentNode` walks `$from.depth` outward), which for a
text cursor is that textblock, and `moveBlockUp` first runs ProseMirror
`joinUp`, whose `joinPoint(doc, pos, -1)` can find a joinable boundary
at any depth — so both commands must be modelled over the tree, not over
a flat block list. -/

/-- The type name of a converted node (`node.type.name`). -/
def PNode.kindOf : PNode → String
  | .text _ _ => "text"
  | .node t _ _ => t

/-- The children of a converted node. -/
def PNode.kidsOf : PNode → List PNode
  | .text _ _ => []
  | .node _ _ c => c

/-- The inline node types of the schema (`text`, `hard_break`). -/
def inlineTypeNames : List String := ["text", "hard_break"]

/-- The textblock types: block nodes with inline content (`paragraph`,
`heading` with `content: "inline*"`, `code_block` with
`content: "text*"`). -/
def textblockTypeNames : List String := ["paragraph", "heading", "code_block"]

/-- The leaf types: nodes whose spec declares no content. -/
def leafTypeNames : List String :=
  ["text", "hard_break", "horizontal_rule", "image"]

/-- The node types carrying `group: "block"` in `editor-config` — the
types admitted by a `block+`/`block*` content expression.  The item
types (`list_item`, `task_item`, `toggle_item`) declare no group and are
only admitted by their list parents. -/
def blockGroupTypeNames : List String :=
  ["paragraph", "heading", "blockquote", "code_block", "horizontal_rule",
   "image", "bullet_list", "ordered_list", "task_list", "toggle_list", "callout"]

/-- ProseMirror `node.isBlock`: every non-inline node (this includes the
item types and `doc` itself). -/
def isBlockNode (p : PNode) : Bool := !(inlineTypeNames.contains p.kindOf)

/-- ProseMirror `node.isTextblock`: a block node with inline content. -/
def isTextblockNode (p : PNode) : Bool := textblockTypeNames.contains p.kindOf

/-- ProseMirror `node.isLeaf`: a node that allows no content. -/
def isLeafNode (p : PNode) : Bool := leafTypeNames.contains p.kindOf

/-- Membership in the `block` group. -/
def isInBlockGroup (p : PNode) : Bool := blockGroupTypeNames.contains p.kindOf

/-- The content grammar of `editor-config`, as a validity test for a
child sequence of a node of type `t`: `doc`/`blockquote` hold `block+`;
`paragraph`/`heading` hold `inline*`; `code_block` holds `text*`; the
three list types hold one-or-more of their item type; the item types and
`callout` hold `paragraph block*`; the leaves hold nothing. -/
def contentOk (t : String) (kids : List PNode) : Bool :=
  if t = "doc" || t = "blockquote" then
    !kids.isEmpty && kids.all isInBlockGroup
  else if t = "paragraph" || t = "heading" then
    kids.all (fun k => inlineTypeNames.contains k.kindOf)
  else if t = "code_block" then
    kids.all (fun k => k.kindOf == "text")
  else if t = "bullet_list" || t = "ordered_list" then
    !kids.isEmpty && kids.all (fun k => k.kindOf == "list_item")
  else if t = "task_list" then
    !kids.isEmpty && kids.all (fun k => k.kindOf == "task_item")
  else if t = "toggle_list" then
    !kids.isEmpty && kids.all (fun k => k.kindOf == "toggle_item")
  else if t = "list_item" || t = "task_item" || t = "toggle_item" || t = "callout" then
    match kids with
    | [] => false
    | h :: rest => h.kindOf == "paragraph" && rest.all isInBlockGroup
  else
    kids.isEmpty

/-- The content class a type accepts, for
`NodeType.compatibleContent`. -/
def contentClassOf (t : String) : String :=
  if t = "doc" || t = "blockquote" then "blocks"
  else if t = "paragraph" || t = "heading" then "inline"
  else if t = "code_block" then "text"
  else if t = "bullet_list" || t = "ordered_list" then "list_item"
  else if t = "task_list" then "task_item"
  else if t = "toggle_list" then "toggle_item"
  else if t = "list_item" || t = "task_item" || t = "toggle_item" || t = "callout" then
    "paragraph-blocks"
  else "none"

/-- ProseMirror `Node.canAppend(other)`: if `other` has content, the
receiver must accept its own children followed by the other node's
children; otherwise the two content expressions must be compatible. -/
def canAppend (a b : PNode) : Bool :=
  if b.kidsOf.isEmpty then
    a.kindOf == b.kindOf ||
      (contentClassOf a.kindOf == contentClassOf b.kindOf &&
        contentClassOf a.kindOf != "none")
  else contentOk a.kindOf (a.kidsOf ++ b.kidsOf)

/-- ProseMirror `joinable(a, b) = a && b && !a.isLeaf && a.canAppend(b)`
(nullability is handled at the call sites). -/
def joinableNodes (a b : PNode) : Bool := !(isLeafNode a) && canAppend a b

/-- The node reached by following a path of child indices. -/
def nodeAtPath : PNode → List Nat → Option PNode
  | p, [] => some p
  | .text _ _, _ :: _ => none
  | .node _ _ kids, i :: rest =>
    match kids.get? i with
    | some k => nodeAtPath k rest
    | none => none

/-- Rebuild the tree with `f` applied to the node at the given path (the
functional reading of dispatching a transaction that rewrites that
node). -/
def updateAtPath : PNode → List Nat → (PNode → PNode) → PNode
  | p, [], f => f p
  | .text s m, _ :: _, _ => .text s m
  | .node t a kids, i :: rest, f =>
    .node t a (kids.take i ++
      (match kids.get? i with
       | some k => [updateAtPath k rest f]
       | none => []) ++ kids.drop (i + 1))

/-- Remove the `i`-th child of a node. -/
def eraseChildAt (p : PNode) (i : Nat) : PNode :=
  match p with
  | .text s m => .text s m
  | .node t a kids => .node t a (kids.eraseIdx i)

/-- The result of `tr.join`: the node after the boundary is dissolved
into the node before it, which keeps its own type and attributes and
gains the other node's children. -/
def mergeNodes (a b : PNode) : PNode :=
  match a with
  | .text s m => .text s m
  | .node t a1 c1 => .node t a1 (c1 ++ b.kidsOf)

/-- Join children `idx - 1` and `idx` of a node (`tr.join` at the
boundary between them). -/
def joinChildrenAt (p : PNode) (idx : Nat) : PNode :=
  match p with
  | .text s m => .text s m
  | .node t a kids =>
    match kids.get? (idx - 1), kids.get? idx with
    | some b, some aft =>
      .node t a (kids.take (idx - 1) ++ [mergeNodes b aft] ++ kids.drop (idx + 1))
    | _, _ => .node t a kids

/-- One step of `joinPoint(doc, pos, -1)` at depth `d < $pos.depth`: the
child of the depth-`d` ancestor before the cursor's depth-`(d+1)`
ancestor must exist, not be a textblock, be joinable with that ancestor,
and the depth-`d` ancestor must tolerate losing one child
(`canReplace(index, index + 1)`).  (At `d = $pos.depth` the node before
a text cursor is a text leaf or null, never joinable, so that depth is
omitted.) -/
def joinCondAt (doc : PNode) (path : List Nat) (d : Nat) : Bool :=
  match nodeAtPath doc (path.take d), nodeAtPath doc (path.take (d + 1)),
      path.get? d with
  | some parent, some aft, some idx =>
    if idx = 0 then false
    else
      match parent.kidsOf.get? (idx - 1) with
      | some bef =>
        !(isTextblockNode bef) && joinableNodes bef aft &&
          contentOk parent.kindOf (parent.kidsOf.eraseIdx idx)
      | none => false
  | _, _, _ => false

/-- `joinPoint(doc, pos, -1)` for a text cursor: the innermost depth at
which a join before the cursor is possible. -/
def joinPointUp (doc : PNode) (path : List Nat) : Option Nat :=
  (List.range path.length).reverse.find? (joinCondAt doc path)

/-- The ancestor paths tried by `findParentNode`, innermost first
(depth 0, the `doc` node itself, is excluded by the `depth > 0`
loop bound). -/
def blockAncestorPaths (path : List Nat) : List (List Nat) :=
  (List.range path.length).reverse.map (fun d => path.take (d + 1))

/-- `getBlockRange`: the path of the innermost block ancestor of the
selection. -/
def getBlockRangePath (doc : PNode) (path : List Nat) : Option (List Nat) :=
  (blockAncestorPaths path).find? (fun p =>
    match nodeAtPath doc p with
    | some n => isBlockNode n
    | none => false)

/-- The observable outcome of `moveBlockUp`:
`joined` — `joinUp` found a join point, dispatched the join and returned
`true` (the new document is computed);
`failed` — `false` was returned with no transaction dispatched, so the
document is unchanged;
`threwBeforeTop` — the manual path ran on a top-level block, where
`$pos.before($pos.depth)` is `$pos.before(0)` and throws a RangeError;
`manualNested` — the manual path ran on a nested block
(`$pos.depth ≥ 1`): the source then performs a slice-based
delete/insert dance whose resulting document this embedding does not
compute. -/
inductive MoveResult where
  | joined (newDoc : PNode)
  | failed
  | threwBeforeTop
  | manualNested

/-- The command `moveBlockUp`: first try `joinUp` (join at the innermost
join point before the cursor); if it fails, resolve the innermost block
via `getBlockRange`, report failure when it has no previous sibling
(`$pos.index($pos.depth) === 0`), and otherwise run the manual path,
which throws on top-level blocks and performs the unmodelled slice swap
on nested ones. -/
def moveBlockUp (doc : PNode) (path : List Nat) : MoveResult :=
  match joinPointUp doc path with
  | some d =>
    .joined (updateAtPath doc (path.take d)
      (fun parent => joinChildrenAt parent (path.getD d 0)))
  | none =>
    match getBlockRangePath doc path with
    | none => .failed
    | some bp =>
      match bp.getLast? with
      | none => .failed
      | some idx =>
        if idx = 0 then .failed
        else if bp.length = 1 then .threwBeforeTop
        else .manualNested

/-- Clearing a block content (`tr.delete(start + 1, end - 1)`) keeps
the node and its attributes and empties its children. -/
def clearBlock : PNode → PNode
  | .text s m => .text s m
  | .node t a _ => .node t a []

/-- The observable outcome of `deleteBlock`: `done` — `true` returned
with the dispatched transaction applied; `failed` — `false` returned, no
transaction; `threw` — the `tr.delete(start, end)` removal would leave
the parent content grammar-invalid, so the ReplaceStep fails and the
transform throws. -/
inductive DeleteResult where
  | done (newDoc : PNode)
  | failed
  | threw

/-- The command `deleteBlock`: resolve the innermost block of the
selection; if the top-level child count (`state.doc.childCount`) is 1,
clear that innermost block content instead of removing it; otherwise
remove the innermost block from its parent. -/
def deleteBlock (doc : PNode) (path : List Nat) : DeleteResult :=
  match getBlockRangePath doc path with
  | none => .failed
  | some bp =>
    if doc.kidsOf.length = 1 then
      .done (updateAtPath doc bp clearBlock)
    else
      match bp.getLast? with
      | none => .failed
      | some idx =>
        match nodeAtPath doc bp.dropLast with
        | none => .failed
        | some parent =>
          if contentOk parent.kindOf (parent.kidsOf.eraseIdx idx) then
            .done (updateAtPath doc bp.dropLast (fun p => eraseChildAt p idx))
          else .threw

/-! ## Helper lemmas -/

/-- Without a payload-marker match, stripping is the identity. -/
theorem stripPmJson_of_not_hasPmJson (t : List Char) (h : hasPmJson t = false) :
    stripPmJson t = t := by
  unfold stripPmJson
  unfold hasPmJson at h
  cases hm : pmMatch t with
  | none => rfl
  | some p => rw [hm] at h; simp at h

/-- The position arithmetic of the streaming effect collapses to the
plain insertion position. -/
theorem insertPos_arith (a b : Nat) :
    a + b - (if 0 < b then b else 0) = a := by
  split <;> omega

/-- The function `convertNodeList` distributes over append. -/
theorem convertNodeList_append (l1 l2 : List JNode) :
    convertNodeList (l1 ++ l2) = convertNodeList l1 ++ convertNodeList l2 := by
  induction l1 with
  | nil => simp [convertNodeList]
  | cons n rest ih =>
      simp only [List.cons_append, convertNodeList]
      cases convertNode n <;> simp [ih]

/-! ## Claims -/

/-- C3: For every AI-session state whose status is not idle
(streaming, pending, or modifying), a new generate request — plain
`GENERATE` or selection-targeted `GENERATE_WITH_ACTION` — is ignored:
`machineStep` causes no state transition and no context change, so no new
session starts until the existing one is resolved. -/
theorem generate_rejected_when_not_idle (s : MState) (c : MCtx)
    (t tone sel act : String) (h : s ≠ MState.idle) :
    machineStep s c (.generate t tone) = (s, c) ∧
    machineStep s c (.generateWithAction sel act) = (s, c) := by
  cases s with
  | idle => exact absurd rfl h
  | streaming => exact ⟨rfl, rfl⟩
  | pending => exact ⟨rfl, rfl⟩
  | modifying => exact ⟨rfl, rfl⟩

/-- Witness for C3 at the `pending` state. -/
theorem generate_rejected_when_not_idle_witness :
    machineStep .pending initialCtx (.generate "draft" "neutral") = (.pending, initialCtx) ∧
    machineStep .pending initialCtx (.generateWithAction "foo" "shorten") = (.pending, initialCtx) :=
  generate_rejected_when_not_idle .pending initialCtx "draft" "neutral" "foo" "shorten"
    (by decide)

/-- C4 counterexample: From the `modifying` state, `STOP` transitions
the machine to `pending`, not to `idle` as the claim states; likewise a
stream error from `modifying` lands in `pending`. -/
theorem modifying_stop_lands_in_pending :
    (machineStep .modifying initialCtx .stop).1 = MState.pending ∧
    (machineStep .modifying initialCtx (.aiError "boom")).1 = MState.pending ∧
    MState.pending ≠ MState.idle := ⟨rfl, rfl, by decide⟩

/-- C4, amended: From the streaming state, a stop or a stream error
transitions the AI session machine to idle (with the error recorded in
the context on the error path); from the modifying state, a stop or a
stream error transitions it to `pending` — not idle — with the error
recorded on the error path. -/
theorem stop_error_transitions (c : MCtx) (e : String) :
    machineStep .streaming c .stop = (.idle, c) ∧
    machineStep .streaming c (.aiError e) = (.idle, { c with error := some e }) ∧
    machineStep .modifying c .stop = (.pending, c) ∧
    machineStep .modifying c (.aiError e) = (.pending, { c with error := some e }) :=
  ⟨rfl, rfl, rfl, rfl⟩

/-- C10: Applying `reject` on an already-idle session is a no-op at
both layers: the machine ignores `REJECT` in `idle` (no error, no state
or context change), and `handleReject` with a cleared
`aiTextStartPosRef` leaves the document untouched and only re-clears the
already-cleared refs, so a second `reject` after a first one changes
nothing at all. -/
theorem reject_idle_noop (c : MCtx) (s : EditorSession)
    (h : s.aiTextStartPos = none) :
    machineStep .idle c .reject = (.idle, c) ∧
    (handleReject s).doc = s.doc ∧
    handleReject (handleReject s) = handleReject s := by
  refine ⟨rfl, ?_, ?_⟩
  · simp [handleReject, h]
  · simp [handleReject, h]

/-- A session whose refs have been cleared (as after a completed
`reject`). -/
def clearedSession : EditorSession :=
  { doc := [('A', false)], selectionFrom := 1, aiTextStartPos := none,
    lastInsertedLength := 0, fullAiText := [], isReplacingSelection := false,
    originalText := [], selectionRange := none }

/-- Witness for C10 on a session that has just been cleared. -/
theorem reject_idle_noop_witness :
    machineStep .idle initialCtx .reject = (.idle, initialCtx) ∧
    (handleReject clearedSession).doc = clearedSession.doc ∧
    handleReject (handleReject clearedSession) = handleReject clearedSession :=
  reject_idle_noop initialCtx clearedSession rfl

/-- The reject behaviour claim C1 describes, read off the spec's words:
delete exactly the provisionally marked span `[insertionStartPosition,
insertionStartPosition + len(insertedText))` and, if the suggestion had
replaced a non-empty user selection, reinsert the original replaced text
verbatim at `insertionStartPosition`; everything outside the span is
untouched. -/
def rejectSpecDoc (s : EditorSession) : List MChar :=
  match s.aiTextStartPos with
  | some startPos =>
      let d1 := deleteRange s.doc startPos (startPos + s.fullAiText.length)
      if s.isReplacingSelection && !s.originalText.isEmpty then
        insertChars d1 startPos s.originalText false
      else d1
  | none => s.doc

/-- A pending session in which user content (`'B'`) sits after the
provisionally marked span: document `"AXB"` with only `'X'` marked, the
suggestion `"X"` inserted at position 2. -/
def rejectCx : EditorSession :=
  { doc := [('A', false), ('X', true), ('B', false)]
    selectionFrom := 1
    aiTextStartPos := some 2
    lastInsertedLength := 1
    fullAiText := ['X']
    isReplacingSelection := false
    originalText := []
    selectionRange := none }

/-- C1 counterexample: `handleReject` deletes up to
`doc.content.size - 1`, the end of the document content, not up to
`insertionStartPosition + len(insertedText)`: on `rejectCx` it also
deletes the `'B'` that lies outside the marked span, so the resulting
document is `"A"` where the claim demands `"AB"`. -/
theorem handleReject_deletes_beyond_span :
    (handleReject rejectCx).doc ≠ rejectSpecDoc rejectCx ∧
    (handleReject rejectCx).doc = [('A', false)] ∧
    rejectSpecDoc rejectCx = [('A', false), ('B', false)] := by
  refine ⟨?_, by decide, by decide⟩
  decide

/-- C1, amended: When a pending suggestion is rejected, the deleted
range runs from `insertionStartPosition` to the end of the document's
content (`doc.content.size - 1`), not just the marked span; so whenever
the marked span is the final content of the document — the common case,
and the only one in which the claim's exact-span wording is met — reject
removes exactly the span, reinserts the original replaced text verbatim
at `insertionStartPosition` when the suggestion had replaced a non-empty
selection, and clears the session state. -/
theorem handleReject_correct (s : EditorSession) (pre span : List MChar)
    (hdoc : s.doc = pre ++ span) (hstart : s.aiTextStartPos = some (pre.length + 1)) :
    (handleReject s).doc =
      pre ++ ((if s.isReplacingSelection && !s.originalText.isEmpty then
        s.originalText else []).map (fun c => (c, false))) ∧
    (handleReject s).aiTextStartPos = none ∧
    (handleReject s).lastInsertedLength = 0 ∧
    (handleReject s).fullAiText = [] ∧
    (handleReject s).isReplacingSelection = false ∧
    (handleReject s).originalText = [] ∧
    (handleReject s).selectionRange = none := by
  have hdel : deleteRange s.doc (pre.length + 1) (contentSize s.doc - 1) = pre := by
    rw [hdoc]
    unfold deleteRange contentSize
    simp only [List.length_append, Nat.add_sub_cancel, Nat.add_succ_sub_one]
    rw [List.take_left, List.drop_eq_nil_of_le (by simp), List.append_nil]
  simp only [handleReject, hstart, hdel, and_true, true_and]
  split
  · unfold insertChars
    rw [List.take_of_length_le (by omega), List.drop_eq_nil_of_le (by omega),
      List.append_nil]
  · simp

/-- A pending session whose marked span `"X"` is the final content of
the document `"fX"`, and which replaced the selected text `"foo"`. -/
def rejectEndSession : EditorSession :=
  { doc := [('f', false), ('X', true)]
    selectionFrom := 2
    aiTextStartPos := some 2
    lastInsertedLength := 1
    fullAiText := ['X']
    isReplacingSelection := true
    originalText := ['f', 'o', 'o']
    selectionRange := some (2, 5) }

/-- Witness for the amended C1: rejecting the end-of-document suggestion
restores `"foo"` after the prefix and clears the session. -/
theorem handleReject_correct_witness :
    (handleReject rejectEndSession).doc =
      [('f', false)] ++ ((if rejectEndSession.isReplacingSelection &&
        !rejectEndSession.originalText.isEmpty then rejectEndSession.originalText
        else []).map (fun c => (c, false))) ∧
    (handleReject rejectEndSession).aiTextStartPos = none ∧
    (handleReject rejectEndSession).lastInsertedLength = 0 ∧
    (handleReject rejectEndSession).fullAiText = [] ∧
    (handleReject rejectEndSession).isReplacingSelection = false ∧
    (handleReject rejectEndSession).originalText = [] ∧
    (handleReject rejectEndSession).selectionRange = none :=
  handleReject_correct rejectEndSession [('f', false)] [('X', true)] rfl rfl

/-- A fresh session: empty paragraph, cursor at position 1, no AI text
yet. -/
def freshSession : EditorSession :=
  { doc := [], selectionFrom := 1, aiTextStartPos := none, lastInsertedLength := 0,
    fullAiText := [], isReplacingSelection := false, originalText := [],
    selectionRange := none }

/-- C2: (a) Once `aiTextStartPosRef` is pinned by the first streamed
chunk it never moves, whatever later text arrives; (b) each delivery
splices the newly arrived chunk into the document exactly at
`insertionStartPosition + (length already inserted)`, carrying the
provisional `em` mark, and advances the immutable inserted-length
counter to the delivered length; (c) in particular, after the machine
accumulates the chunks `"Hello"` then `" world"` (so the effect sees
`apiText = "Hello"` and then `"Hello world"`), a fresh session's
document holds the provisionally marked text `"Hello world"` at the
fixed insertion point 1. -/
theorem streaming_fixed_insertion_point :
    (∀ (st : EditorSession) (t : List Char) (p : Nat),
        st.aiTextStartPos = some p → (streamEffect st t).aiTextStartPos = some p) ∧
    (∀ (st : EditorSession) (t : List Char) (p : Nat),
        st.aiTextStartPos = some p → hasPmJson t = false →
        st.lastInsertedLength < (jsTrim t).length →
        ((jsTrim t).drop st.lastInsertedLength).filter (fun c => c ≠ '\r') ≠ [] →
        (streamEffect st t).doc =
          insertChars st.doc (p + st.lastInsertedLength)
            (((jsTrim t).drop st.lastInsertedLength).filter (fun c => c ≠ '\r')) true ∧
        (streamEffect st t).lastInsertedLength = (jsTrim t).length) ∧
    ((streamEffect (streamEffect freshSession "Hello".toList) "Hello world".toList).doc =
        "Hello world".toList.map (fun c => (c, true)) ∧
      (streamEffect (streamEffect freshSession "Hello".toList)
          "Hello world".toList).aiTextStartPos = some 1) := by
  refine ⟨?_, ?_, by decide, by decide⟩
  · intro st t p h
    simp only [streamEffect, h]
    split
    · rfl
    · split
      · split
        · rfl
        · rfl
      · rfl
  · intro st t p h h2 h3 h4
    have hne : t.isEmpty = false := by
      cases t with
      | nil => simp [jsTrim, List.dropWhile] at h3
      | cons a l => rfl
    have hstrip := stripPmJson_of_not_hasPmJson t h2
    have h4' : (((jsTrim t).drop st.lastInsertedLength).filter
        (fun c => c ≠ '\r')).isEmpty = false := by
      cases hc : ((jsTrim t).drop st.lastInsertedLength).filter (fun c => c ≠ '\r') with
      | nil => exact absurd hc h4
      | cons a l => rfl
    simp only [streamEffect, hne, hstrip, h, h4', if_pos h3, Bool.false_eq_true,
      if_false, insertPos_arith]
    exact ⟨trivial, trivial⟩

/-- The session after the first chunk `"Hello"` has been applied. -/
def midSession : EditorSession := streamEffect freshSession "Hello".toList

/-- Witness for C2: the stability and splice laws applied at the session
that already received `"Hello"`, with `apiText` grown to
`"Hello world"`. -/
theorem streaming_fixed_insertion_point_witness :
    (streamEffect midSession "Hello world".toList).aiTextStartPos = some 1 ∧
    ((streamEffect midSession "Hello world".toList).doc =
        insertChars midSession.doc (1 + midSession.lastInsertedLength)
          (((jsTrim "Hello world".toList).drop midSession.lastInsertedLength).filter
            (fun c => c ≠ '\r')) true ∧
      (streamEffect midSession "Hello world".toList).lastInsertedLength =
        (jsTrim "Hello world".toList).length) :=
  ⟨streaming_fixed_insertion_point.1 midSession "Hello world".toList 1 (by decide),
   streaming_fixed_insertion_point.2.1 midSession "Hello world".toList 1 (by decide)
     (by decide) (by decide) (by decide)⟩

/-- C5: Typing `"- [ ] "` at the start of an empty block fires the
unchecked-task rule: the block is replaced by a task-list holding exactly
one task-item with `checked = false` containing one empty paragraph, and
the produced effect involves no bullet-list anywhere. -/
theorem task_rule_wins_over_bullet :
    runInputRules "- [ ] ".toList = some (.replaceBlock [taskListNode false]) ∧
    (runInputRules "- [ ] ".toList).map usesBulletList = some false :=
  ⟨rfl, rfl⟩

/-- The valid-position predicate claim C6 describes: start of the block,
or immediately after a whitespace character or newline. -/
def specValidSlashPosition (textBefore : List Char) (parentOffset : Nat) : Bool :=
  parentOffset == 0 ||
    (match textBefore.reverse with
     | c :: _ => isJsWs c
     | [] => false)

/-- C6 counterexample: A `/` typed immediately after a tab — a
whitespace character, so a valid position by the claim — does not
activate the controller: `handleKeyDown` only accepts a trailing space
or newline, so the state is unchanged (and the `/` becomes plain
text). -/
theorem slash_after_tab_not_activated :
    specValidSlashPosition ['a', '\t'] 2 = true ∧
    slashKeyDown ['a', '\t'] 2 3 initSlashState = (initSlashState, false) ∧
    (slashKeyDown ['a', '\t'] 2 3 initSlashState).1.active = false := by
  decide

/-- C6, amended: The controller transitions from inactive to
active, with an empty query over `[pos, pos + 1]`, exactly when the `/`
is typed at the start of a block or immediately after a space or a
newline character (not after other whitespace such as a tab); at any
other position the controller state is unchanged.  In every case the
handler returns `false`, so the `/` itself is inserted as plain text. -/
theorem slashKeyDown_spec (textBefore : List Char) (off pos : Nat)
    (st : SlashMenuState) (_h : st.active = false) :
    (slashKeyDown textBefore off pos st).2 = false ∧
    (isValidSlashPosition textBefore off = true →
      (slashKeyDown textBefore off pos st).1 =
        { active := true, query := [], menuFrom := pos, menuTo := pos + 1 }) ∧
    (isValidSlashPosition textBefore off = false →
      (slashKeyDown textBefore off pos st).1 = st) := by
  unfold slashKeyDown
  refine ⟨?_, ?_, ?_⟩
  · split <;> rfl
  · intro hv; rw [if_pos hv]
  · intro hv; rw [if_neg (by simp [hv])]

/-- Witness for the amended C6 at a genuine block start. -/
theorem slashKeyDown_spec_witness :
    (slashKeyDown [] 0 1 initSlashState).2 = false ∧
    (isValidSlashPosition [] 0 = true →
      (slashKeyDown [] 0 1 initSlashState).1 =
        { active := true, query := [], menuFrom := 1, menuTo := 2 }) ∧
    (isValidSlashPosition [] 0 = false →
      (slashKeyDown [] 0 1 initSlashState).1 = initSlashState) :=
  slashKeyDown_spec [] 0 1 initSlashState rfl

/-- The JSON payload node `{"type": "text"}`: a text node whose `text`
field is missing (modelled as the empty string), for which
`schema.text("")` throws. -/
def badTextJNode : JNode := .mk "text" [] "" [] []

/-- A well-formed sibling: a paragraph holding the text `"ok"`. -/
def okParaJNode : JNode := .mk "paragraph" [] "" [] [.mk "text" [] "ok" [] []]

/-- A payload whose first top-level node errors during conversion. -/
def cxPayload : JNode := .mk "doc" [] "" [] [badTextJNode, okParaJNode]

/-- C7 counterexample: A per-node conversion error (here:
`schema.text("")` throwing on a text node with no text) is caught, but
the node is then *dropped* — `convertNode` returns `null` and nothing is
emitted for it — it does not fall back to a plain text run as the claim
states: converting `cxPayload` yields only the sibling paragraph. -/
theorem convert_error_drops_node :
    convertNodeAttempt badTextJNode = .error () ∧
    convertNode badTextJNode = none ∧
    jsonToNodes (some cxPayload) = [.node "paragraph" [] [.text "ok" []]] := by
  have h1 : convertNodeAttempt badTextJNode = .error () := by
    simp [convertNodeAttempt, badTextJNode, schemaNodeNames]
  have h2 : convertNode badTextJNode = none := by
    simp [convertNode, h1]
  refine ⟨h1, h2, ?_⟩
  simp [jsonToNodes, cxPayload, JNode.contentOf, convertNodeList, h2, convertNode,
    convertNodeAttempt, okParaJNode, schemaNodeNames, schemaMarkNames]

/-- C7, amended: Conversion of a structured payload is contained
per node: a node whose type name does not resolve against the schema is
dropped with a logged warning (an ordinary `null`, not an error), and
any per-node conversion error is caught and that node is dropped —
yielding nothing, not a plain-text fallback; either way a bad node never
aborts the conversion or disturbs its siblings. -/
theorem jsonToNodes_contained (n : JNode) (l1 l2 : List JNode)
    (h : convertNode n = none) :
    convertNodeList (l1 ++ n :: l2) = convertNodeList (l1 ++ l2) ∧
    (∀ m : JNode, schemaNodeNames.contains m.typeName = false →
      convertNodeAttempt m = .ok none ∧ convertNode m = none) := by
  constructor
  · rw [convertNodeList_append, convertNodeList_append]
    congr 1
    simp only [convertNodeList, h]
  · intro m hm
    have hattempt : convertNodeAttempt m = .ok none := by
      cases m with
      | mk ty attrs tx mks content =>
          unfold convertNodeAttempt
          simp only [JNode.typeName] at hm
          rw [hm]
          simp
    refine ⟨hattempt, ?_⟩
    unfold convertNode
    rw [hattempt]

/-- A payload node with an unknown type name. -/
def unknownJNode : JNode := .mk "fancy_widget" [] "" [] []

/-- Witness for the amended C7: the erroring text node is skipped
between two good paragraphs, and the unknown-type node converts to a
warned-and-dropped `null` without an error. -/
theorem jsonToNodes_contained_witness :
    convertNodeList ([okParaJNode] ++ badTextJNode :: [okParaJNode]) =
      convertNodeList ([okParaJNode] ++ [okParaJNode]) ∧
    (∀ m : JNode, schemaNodeNames.contains m.typeName = false →
      convertNodeAttempt m = .ok none ∧ convertNode m = none) :=
  jsonToNodes_contained badTextJNode [okParaJNode] [okParaJNode]
    (by simp [convertNode, convertNodeAttempt, badTextJNode, schemaNodeNames])

/-- The empty path resolves to the node itself. -/
theorem nodeAtPath_nil (p : PNode) : nodeAtPath p [] = some p := by
  cases p <;> rfl

/-- A document whose first top-level block is a bullet list with two
items, followed by a paragraph; the cursor sits in the second item. -/
def nestedFirstDoc : PNode :=
  .node "doc" [] [
    .node "bullet_list" [] [
      .node "list_item" [] [.node "paragraph" [] [.text "one" []]],
      .node "list_item" [] [.node "paragraph" [] [.text "two" []]]],
    .node "paragraph" [] [.text "after" []]]

/-- The document `joinUp` produces from `nestedFirstDoc`: the two list
items merged into one. -/
def joinedFirstDoc : PNode :=
  .node "doc" [] [
    .node "bullet_list" [] [
      .node "list_item" [] [
        .node "paragraph" [] [.text "one" []],
        .node "paragraph" [] [.text "two" []]]],
    .node "paragraph" [] [.text "after" []]]

/-- C8 counterexample: with the cursor inside the second item of a list
that is the document first block — a selection inside the document
first block — `moveBlockUp` does not fail: `joinUp` finds the joinable
`list_item` boundary, merges the two items, returns success and mutates
the document. -/
theorem moveBlockUp_first_block_can_succeed :
    moveBlockUp nestedFirstDoc [0, 1, 0] = .joined joinedFirstDoc ∧
    moveBlockUp nestedFirstDoc [0, 1, 0] ≠ MoveResult.failed := by
  have h : moveBlockUp nestedFirstDoc [0, 1, 0] = .joined joinedFirstDoc := rfl
  refine ⟨h, ?_⟩
  rw [h]
  intro hbad
  exact MoveResult.noConfusion hbad

/-- C8, amended: when the cursor innermost block *is* the document
first top-level block (path `[0]`, e.g. a paragraph or heading with no
nested blocks), move-up returns failure with no transaction dispatched,
leaving the document unchanged: `joinPoint` finds nothing before index
0 and the manual path bails out at `$pos.index === 0`.  A selection
merely *inside* the first block does not guarantee this: `joinUp` may
join at an inner boundary and succeed. -/
theorem moveBlockUp_cursor_in_first_top_block (doc : PNode) :
    moveBlockUp doc [0] = MoveResult.failed := by
  have hcond : joinCondAt doc [0] 0 = false := by
    unfold joinCondAt
    cases h0 : nodeAtPath doc [0] <;> simp [h0, nodeAtPath_nil]
  unfold moveBlockUp joinPointUp getBlockRangePath blockAncestorPaths
  cases h0 : nodeAtPath doc [0] with
  | none => simp [List.find?, hcond, h0]
  | some n => cases hb : isBlockNode n <;> simp [List.find?, hcond, h0, hb]


/-- A textblock kind is one of the three textblock type names. -/
theorem textblock_kind_cases (p : PNode) (h : isTextblockNode p = true) :
    p.kindOf = "paragraph" ∨ p.kindOf = "heading" ∨ p.kindOf = "code_block" := by
  unfold isTextblockNode textblockTypeNames at h
  simp at h
  tauto

/-- Textblocks are blocks and belong to the `block` group. -/
theorem textblock_is_block (p : PNode) (h : isTextblockNode p = true) :
    isBlockNode p = true ∧ isInBlockGroup p = true := by
  rcases textblock_kind_cases p h with hk | hk | hk <;>
    (constructor
     · unfold isBlockNode inlineTypeNames; rw [hk]; decide
     · unfold isInBlockGroup blockGroupTypeNames; rw [hk]; decide)

mutual

/-- The block-node count of `getAllBlockPositions`: descendants with
`node.isBlock` whose type is not `doc` (the item types count — they are
blocks). -/
def blockCountNode : PNode → Nat
  | .text _ _ => 0
  | .node t _ kids =>
    (if t ≠ "doc" && !(inlineTypeNames.contains t) then 1 else 0) +
      blockCountList kids

/-- Sum of `blockCountNode` over a child list. -/
def blockCountList : List PNode → Nat
  | [] => 0
  | n :: rest => blockCountNode n + blockCountList rest

end

/-- A document whose single top-level child is a bullet list holding one
item with one paragraph; the cursor sits in that paragraph. -/
def singleListDoc : PNode :=
  .node "doc" [] [
    .node "bullet_list" [] [
      .node "list_item" [] [.node "paragraph" [] [.text "hi" []]]]]

/-- The result the program produces on `singleListDoc`: the inner
paragraph is emptied but kept in place. -/
def singleListClearedDoc : PNode :=
  .node "doc" [] [
    .node "bullet_list" [] [
      .node "list_item" [] [.node "paragraph" [] []]]]

/-- C9 counterexample: on a document whose only *top-level* child is a
list, the block containing the selection is the inner paragraph — one of
three blocks in the document, so not the document's only block — yet
`deleteBlock` does not remove it: the `doc.childCount === 1` gate fires
and the paragraph is cleared and kept instead. -/
theorem deleteBlock_clears_non_only_block :
    deleteBlock singleListDoc [0, 0, 0] = .done singleListClearedDoc ∧
    nodeAtPath singleListClearedDoc [0, 0, 0] = some (.node "paragraph" [] []) ∧
    blockCountNode singleListDoc = 3 := by
  refine ⟨rfl, rfl, ?_⟩
  norm_num [blockCountNode, blockCountList, inlineTypeNames, singleListDoc]
  decide

/-- The empty path update applies the function to the node itself. -/
theorem updateAtPath_nil (p : PNode) (f : PNode → PNode) :
    updateAtPath p [] f = f p := by
  cases p <;> rfl

/-- C9, amended: `deleteBlock` removes the *innermost* block containing
the selection, except when the *document* has exactly one top-level
child (`doc.childCount === 1` — a test on the top level, not on the
selected block), in which case that innermost block has its content
cleared and the node is kept.  For a flat document whose top-level
children are textblocks and whose selection sits directly in one of
them, this is the original claim: the selected block is removed unless
it is the document's only block, which is cleared instead — and the
document always keeps at least one block.  For nested selections the
gate and the target disagree, as the counterexample shows. -/
theorem deleteBlock_flat_spec (blocks : List PNode) (i : Nat) (b : PNode)
    (hget : blocks.get? i = some b)
    (hflat : ∀ x ∈ blocks, isTextblockNode x = true) :
    (blocks.length = 1 →
      deleteBlock (.node "doc" [] blocks) [i] =
        .done (.node "doc" [] [clearBlock b])) ∧
    (1 < blocks.length →
      deleteBlock (.node "doc" [] blocks) [i] =
        .done (.node "doc" [] (blocks.eraseIdx i)) ∧
      1 ≤ (blocks.eraseIdx i).length) := by
  obtain ⟨hlt, -⟩ := List.get?_eq_some.mp hget
  have hmem : b ∈ blocks := List.get?_mem hget
  have hb : isTextblockNode b = true := hflat b hmem
  have hget2 : blocks[i]? = some b := by
    rw [← List.get?_eq_getElem?]; exact hget
  have hnode : nodeAtPath (.node "doc" [] blocks) [i] = some b := by
    simp [nodeAtPath, hget2, nodeAtPath_nil]
  have hbp : getBlockRangePath (.node "doc" [] blocks) [i] = some [i] := by
    unfold getBlockRangePath blockAncestorPaths
    simp [List.find?, hnode, (textblock_is_block b hb).1]
  constructor
  · intro h1
    have hi0 : i = 0 := by omega
    subst hi0
    obtain ⟨a, ha⟩ := List.length_eq_one.mp h1
    subst ha
    simp at hget
    subst hget
    unfold deleteBlock
    simp only [hbp, PNode.kidsOf, List.length_singleton, if_pos]
    simp [updateAtPath, nodeAtPath_nil, updateAtPath_nil]
  · intro h2
    have herase : (blocks.eraseIdx i).length = blocks.length - 1 := by
      rw [List.length_eraseIdx]; simp [hlt]
    have hcok : contentOk "doc" (blocks.eraseIdx i) = true := by
      unfold contentOk
      rw [if_pos (by decide :
        (decide (("doc" : String) = "doc") || decide (("doc" : String) = "blockquote")) = true)]
      rw [Bool.and_eq_true]
      refine ⟨?_, ?_⟩
      · cases he : blocks.eraseIdx i with
        | nil => rw [he] at herase; simp at herase; omega
        | cons x xs => simp
      · exact List.all_eq_true.mpr (fun x hx =>
          (textblock_is_block x (hflat x (List.mem_of_mem_eraseIdx hx))).2)
    unfold deleteBlock
    simp only [hbp, PNode.kidsOf]
    rw [if_neg (by omega : ¬ blocks.length = 1)]
    simp only [show ([i] : List Nat).getLast? = some i from rfl,
      show ([i] : List Nat).dropLast = ([] : List Nat) from rfl, nodeAtPath_nil,
      PNode.kindOf]
    rw [if_pos hcok]
    refine ⟨?_, by omega⟩
    rw [updateAtPath_nil]
    rfl

/-- A flat paragraph block. -/
def flatParaA : PNode := .node "paragraph" [] [.text "a" []]

/-- A flat heading block. -/
def flatHeadB : PNode := .node "heading" [("level", .nat 1)] [.text "b" []]

/-- Witness for the amended C9 at the two canonical flat documents:
deleting the only paragraph clears it; deleting the second of two
textblocks removes it and one block remains. -/
theorem deleteBlock_flat_spec_witness :
    ((([flatParaA] : List PNode).length = 1 →
      deleteBlock (.node "doc" [] [flatParaA]) [0] =
        .done (.node "doc" [] [clearBlock flatParaA])) ∧
     (1 < ([flatParaA] : List PNode).length →
      deleteBlock (.node "doc" [] [flatParaA]) [0] =
        .done (.node "doc" [] (([flatParaA] : List PNode).eraseIdx 0)) ∧
      1 ≤ (([flatParaA] : List PNode).eraseIdx 0).length)) ∧
    ((([flatParaA, flatHeadB] : List PNode).length = 1 →
      deleteBlock (.node "doc" [] [flatParaA, flatHeadB]) [1] =
        .done (.node "doc" [] [clearBlock flatHeadB])) ∧
     (1 < ([flatParaA, flatHeadB] : List PNode).length →
      deleteBlock (.node "doc" [] [flatParaA, flatHeadB]) [1] =
        .done (.node "doc" [] (([flatParaA, flatHeadB] : List PNode).eraseIdx 1)) ∧
      1 ≤ (([flatParaA, flatHeadB] : List PNode).eraseIdx 1).length)) :=
  ⟨deleteBlock_flat_spec [flatParaA] 0 flatParaA rfl (by decide),
   deleteBlock_flat_spec [flatParaA, flatHeadB] 1 flatHeadB rfl (by decide)⟩
